import Mathlib

/-!
Verification development for the EcommerceAIAgent repository.

The development shallowly embeds:
* the frontend TypeScript sources (`src/frontend/src`, `src/unnamed`):
  chat and approval service payloads, the `useChat` pending-approval logic,
  and the localStorage-backed conversation-id utilities;
* the backend behavior documented in the repository's request-flow analysis
  (`src/unnamed/part_008`), which quotes the order-id extraction code and
  describes the routing and LLM-response normalization;
* a model of the agent orchestration engine (graph engine, approval gate)
  built from the specification, since the backend Python sources
  (`app/graph`, `app/approvals`, `app/api`) are not part of the sources
  available here.
-/

namespace EcommerceAgent

/-! ## Generic character-list utilities (ASCII string processing) -/

/-- Splits a character list into words at whitespace, dropping empty pieces.
This mirrors Python `str.split()` with no argument (used by the backend) and
is also used by the spec-modelled normalizer.  The accumulator holds the
current word reversed. -/
def splitWords : List Char → List Char → List (List Char)
  | [], acc => if acc.isEmpty then [] else [acc.reverse]
  | c :: cs, acc =>
    if c.isWhitespace then
      (if acc.isEmpty then splitWords cs [] else acc.reverse :: splitWords cs [])
    else splitWords cs (c :: acc)

/-- Removes leading and trailing whitespace, as Python `str.strip()`. -/
def pyStrip (l : List Char) : List Char :=
  ((l.dropWhile Char.isWhitespace).reverse.dropWhile Char.isWhitespace).reverse

/-- Substring test on character lists: does `pat` occur contiguously in the
second argument?  Mirrors JavaScript `String.prototype.includes`. -/
def listContainsSub (pat : List Char) : List Char → Bool
  | [] => pat.isEmpty
  | c :: rest => pat.isPrefixOf (c :: rest) || listContainsSub pat rest

/-- ASCII lowercasing of a string, as JavaScript `toLowerCase` on ASCII. -/
def lowerString (s : String) : String := String.mk (s.data.map Char.toLower)

namespace Frontend

/-! ## Frontend embeddings (src/frontend/src and the unnamed duplicates) -/

/-- Embedded from `src/frontend/src/types/chat.ts` (`src/unnamed/part_005`):
the inbound turn request `ChatRequest`. -/
structure ChatRequest where
  message : String
  conversation_id : Option String
deriving DecidableEq

/-- Embedded from `src/frontend/src/types/chat.ts` (`src/unnamed/part_005`):
the turn response `ChatResponse`. -/
structure ChatResponse where
  response : String
  requires_approval : Bool
  approval_id : Option String
deriving DecidableEq

/-- Embedded from `sendMessage` in `chatService.ts` (`src/unnamed/part_002`):
the request record posted to `/chat`. -/
def sendMessageRequest (message : String) (conversationId : Option String) : ChatRequest :=
  { message := message, conversation_id := conversationId }

/-- Modelled from the spec: the backend chat endpoint (`app/api`, not among the
available sources) creates a fresh conversation identifier when the inbound
`conversation_id` is null (spec section 6, "creates `conversation_id` if
absent"). -/
def ensureConversationId (req : ChatRequest) (freshId : String) : String :=
  match req.conversation_id with
  | some cid => cid
  | none => freshId

/-- The turn-response shape written down in spec section 6, for comparison
with the frontend `ChatResponse` type. -/
structure TurnResponseSpec where
  response : String
  requires_approval : Bool
  approval_id : Option String
deriving DecidableEq

def chatResponseToSpec (r : ChatResponse) : TurnResponseSpec :=
  ⟨r.response, r.requires_approval, r.approval_id⟩

def chatResponseOfSpec (t : TurnResponseSpec) : ChatResponse :=
  ⟨t.response, t.requires_approval, t.approval_id⟩

/-- Embedded from `src/frontend/src/types/approval.ts`: the decision union
`'APPROVED' | 'REJECTED'`. -/
inductive ApprovalDecision
  | APPROVED
  | REJECTED
deriving DecidableEq

def decisionString : ApprovalDecision → String
  | ApprovalDecision.APPROVED => "APPROVED"
  | ApprovalDecision.REJECTED => "REJECTED"

/-- Embedded from `src/frontend/src/types/approval.ts`: the response of
`POST /approvals/{approval_id}`. -/
structure ApprovalResponse where
  status : String
  message : String
deriving DecidableEq

/-- The approval-resolution response shape from spec section 6. -/
structure ApprovalResponseSpec where
  status : String
  message : String
deriving DecidableEq

def approvalResponseToSpec (r : ApprovalResponse) : ApprovalResponseSpec :=
  ⟨r.status, r.message⟩

def approvalResponseOfSpec (t : ApprovalResponseSpec) : ApprovalResponse :=
  ⟨t.status, t.message⟩

/-- Embedded from `submitApproval` in `approvalService.ts`: the JSON body
posted to `POST /approvals/{approvalId}`, rendered as a key-value record so
that field names can be inspected.  The source builds
`const request: ApprovalRequest = { status }`. -/
def submitApprovalBody (status : ApprovalDecision) : List (String × String) :=
  [("status", decisionString status)]

/-- Embedded from `submitApproval` in `approvalService.ts`: the request path. -/
def submitApprovalPath (approvalId : String) : String :=
  "/approvals/" ++ approvalId

/-- Embedded from `src/frontend/src/types/approval.ts`: `ActionType`. -/
inductive ActionType
  | CANCEL_ORDER
  | REFUND_ORDER
  | NONE
deriving DecidableEq

/-- Embedded from `src/frontend/src/types/approval.ts`: `PendingApproval`. -/
structure PendingApproval where
  approvalId : String
  orderId : String
  action : ActionType
  message : String
deriving DecidableEq

/-- JavaScript `\s` on the characters that can occur in ASCII responses
(space, tab, line feed, carriage return, vertical tab, form feed, nbsp). -/
def isJsWs (c : Char) : Bool :=
  c = ' ' || c = '\t' || c = '\n' || c = '\r' || c = '\x0b' || c = '\x0c' ||
  c = '\u00A0'

/-- Character class `[A-Z0-9-]` under the `i` flag: also lowercase letters. -/
def isIdChar (c : Char) : Bool :=
  ('A' ≤ c && c ≤ 'Z') || ('a' ≤ c && c ≤ 'z') || ('0' ≤ c && c ≤ '9') || c = '-'

/-- Case-insensitive literal match: consumes the pattern (given lowercase)
from the front of the input and returns the rest on success. -/
def matchInsensitive : List Char → List Char → Option (List Char)
  | [], rest => some rest
  | _ :: _, [] => none
  | k :: ks, c :: cs => if c.toLower = k then matchInsensitive ks cs else none

/-- Skips the optional `#` of `(?:#)?`.  Consuming an available `#` is
complete because `#` is neither whitespace nor in `[A-Z0-9-]`, so no
backtracking is possible. -/
def capHash : List Char → List Char
  | '#' :: t => t
  | t => t

/-- The final `([A-Z0-9-]+)` of the pattern: a non-empty greedy take. -/
def captureTail (r3 : List Char) : Option (List Char) :=
  if (r3.takeWhile isIdChar).isEmpty then none else some (r3.takeWhile isIdChar)

/-- One anchored attempt of the regex `/order\s+(?:#)?([A-Z0-9-]+)/i` at the
head of the input, returning the first capture group. -/
def captureAt (cs : List Char) : Option (List Char) :=
  match matchInsensitive ['o', 'r', 'd', 'e', 'r'] cs with
  | none => none
  | some r1 =>
    if (r1.takeWhile isJsWs).isEmpty then none
    else captureTail (capHash (r1.dropWhile isJsWs))

/-- Leftmost match of `/order\s+(?:#)?([A-Z0-9-]+)/i`, as JavaScript
`String.prototype.match` with a non-global regex: attempts the anchored
match at each position from the left. -/
def firstCapture : List Char → Option (List Char)
  | [] => none
  | c :: rest =>
    match captureAt (c :: rest) with
    | some cap => some cap
    | none => firstCapture rest

/-- Embedded from `useChat.ts` `onSuccess`:
`const orderIdMatch = response.response.match(/order\s+(?:#)?([A-Z0-9-]+)/i)`
followed by `orderIdMatch ? orderIdMatch[1] : 'Unknown'`. -/
def extractOrderIdFromText (s : String) : String :=
  match firstCapture s.data with
  | some cap => String.mk cap
  | none => "Unknown"

/-- Embedded from `useChat.ts` `onSuccess`: action defaults to
`CANCEL_ORDER` and becomes `REFUND_ORDER` when
`response.response.toLowerCase().includes('refund')`. -/
def extractActionFromText (s : String) : ActionType :=
  if listContainsSub "refund".data (lowerString s).data then ActionType.REFUND_ORDER
  else ActionType.CANCEL_ORDER

/-- JavaScript truthiness of a `string | null` value: `null` and the empty
string are falsy. -/
def truthyString : Option String → Bool
  | none => false
  | some s => !(s == "")

/-- Embedded from `useChat.ts` `onSuccess`: the pending-approval value set by
the handler.  The source runs
`if (response.requires_approval && response.approval_id) setPendingApproval({...})
else setPendingApproval(null)`; the branch condition uses JavaScript
truthiness of `approval_id`. -/
def onChatSuccessPending (r : ChatResponse) : Option PendingApproval :=
  if r.requires_approval && truthyString r.approval_id then
    some { approvalId := r.approval_id.getD "",
           orderId := extractOrderIdFromText r.response,
           action := extractActionFromText r.response,
           message := r.response }
  else none

/-- The browser environment seen by `conversationId.ts`: whether `window`
is defined, and the value stored under the localStorage key
`ecommerce_ai_conversation_id` (`none` when absent). -/
structure BrowserEnv where
  hasWindow : Bool
  stored : Option String
deriving DecidableEq

/-- Embedded from `generateConversationId` in `conversationId.ts`:
`` `conv-${Date.now()}-${Math.random().toString(36).substr(2, 9)}` ``, with
`Date.now()` and the random suffix supplied as arguments. -/
def generateConversationId (ts : Nat) (rand : String) : String :=
  "conv-" ++ toString ts ++ "-" ++ rand

/-- Embedded from `getOrCreateConversationId` in `conversationId.ts`.
Without `window` a fresh id is returned unstored; otherwise the stored value
is returned when truthy (`if (stored)`: an empty stored string counts as
absent), else a fresh id is generated, stored, and returned. -/
def getOrCreateConversationId (ts : Nat) (rand : String) (env : BrowserEnv) :
    String × BrowserEnv :=
  if env.hasWindow = false then (generateConversationId ts rand, env)
  else
    match env.stored with
    | some s =>
      if s == "" then
        let nid := generateConversationId ts rand
        (nid, { env with stored := some nid })
      else (s, env)
    | none =>
      let nid := generateConversationId ts rand
      (nid, { env with stored := some nid })

/-- Embedded from `setConversationId` in `conversationId.ts`. -/
def setConversationId (id : String) (env : BrowserEnv) : BrowserEnv :=
  if env.hasWindow then { env with stored := some id } else env

end Frontend

namespace Engine

/-! ## Enumerations shared by the engine model and the documented backend -/

/-- The `requested_action` enumeration (spec section 3; `action` in the
backend state described by `src/unnamed/part_008`). -/
inductive Action
  | NONE
  | CANCEL_ORDER
  | REFUND_ORDER
deriving DecidableEq

/-- The `next_step` control-flow signal (spec section 3; the same values
appear throughout `src/unnamed/part_008`). -/
inductive NextStep
  | NONE
  | FETCH_ORDER
  | FETCH_POLICY
  | DONE
deriving DecidableEq

end Engine

namespace Backend

/-! ## Backend behavior as documented in src/unnamed/part_008

The backend Python sources are not among the available sources; the
request-flow analysis document `src/unnamed/part_008` quotes the decisive
code of `fetch_order_data` verbatim and describes the routing function and
the LLM-response normalization concretely.  These definitions embed that
documented behavior. -/

/-- Embedded from the order-id extraction loop of `fetch_order_data`, quoted
verbatim in `src/unnamed/part_008`:

`for word in user_message.split():` /
`  if word.startswith("ORD-") or word.startswith("#"):` /
`    order_id = word.replace("#", "").strip()` /
`    break`

`replace("#", "")` removes every `#` character; `strip()` is `pyStrip`. -/
def extract_order_id (user_message : String) : Option String :=
  match (splitWords user_message.data []).find?
      (fun w => ("ORD-".data).isPrefixOf w || ("#".data).isPrefixOf w) with
  | some w => some (String.mk (pyStrip (w.filter (fun c => !(c == '#')))))
  | none => none

/-- The agent graph state fields that the routing decision can see,
as documented in `src/unnamed/part_008`. -/
structure AgentGraphState where
  user_message : String
  action : Engine.Action
  next_step : Engine.NextStep
  iteration_count : Nat
  max_iterations : Nat
  order_data : Option String
  policy_context : Option String
deriving DecidableEq

/-- The two routing targets reachable from `output_guardrails` in the graph
described by `src/unnamed/part_008` (which states that the graph has no
loop-back edges). -/
inductive RouteTarget
  | human_approval
  | format_final_response
deriving DecidableEq

/-- Embedded from `should_require_approval` as documented in
`src/unnamed/part_008` (Issues 4 and 5): the routing after
`output_guardrails` inspects only `action`; `next_step`, the iteration
counter and the fetched data are ignored, and no edge loops back to a fetch
node. -/
def should_require_approval (s : AgentGraphState) : RouteTarget :=
  if s.action = Engine.Action.NONE then RouteTarget.format_final_response
  else RouteTarget.human_approval

/-- The apostrophe character, kept out of string literals. -/
def apostropheChar : Char := Char.ofNat 39

/-- The fixed fallback message that `normalize_llm_response_dict` substitutes
for a null `final_answer`, as recorded in `src/unnamed/part_008`:
"I apologize, but I couldn&#39;t generate a response." -/
def genericApology : String :=
  "I apologize, but I couldn" ++ String.mk [apostropheChar] ++ "t generate a response."

/-- Embedded from `normalize_llm_response_dict` as documented in
`src/unnamed/part_008` (lines 122-132): a null `final_answer` is replaced by
the fixed fallback message, independently of the conversation context. -/
def normalize_final_answer : Option String → String
  | none => genericApology
  | some t => t

end Backend

namespace Engine

/-! ## Spec-modelled agent orchestration engine

The graph engine, approval gate and action executor live in the backend
Python packages (`app/graph`, `app/approvals`, `app/actions`), which are not
among the available sources.  The definitions below are modelled from the
spec (sections 3, 4.1, 4.2, 4.3); each doc comment names the spec rule it
follows. -/

/-- Graph nodes (spec section 4.1). -/
inductive Node
  | CLASSIFY_INTENT
  | FETCH_ORDER
  | FETCH_POLICY
  | REASON
  | VALIDATE_OUTPUT
  | AWAIT_APPROVAL
  | EXECUTE_ACTION
  | FORMAT_RESPONSE
deriving DecidableEq

/-- Approval lifecycle status (spec section 3). -/
inductive ApprovalStatus
  | PENDING
  | APPROVED
  | REJECTED
deriving DecidableEq

/-- The reasoning capability's structured decision document
(spec section 6). -/
structure Decision where
  final_answer : Option String
  action : Action
  order_id : Option String
  confidence : Nat
  requires_human_approval : Bool
  next_step : NextStep
deriving DecidableEq

/-- An approval request record (spec section 3). -/
structure ApprovalRequest where
  approval_id : Nat
  conversation_id : String
  action : Action
  order_id : String
  proposed_message : String
  status : ApprovalStatus
deriving DecidableEq

/-- Outcome of an executed action (spec section 4.4), keyed by the approval
that authorized it. -/
structure ExecutionResult where
  approval_id : Nat
  action : Action
  ok : Bool
deriving DecidableEq

/-- Modelled from the spec: the `ConversationState` record of section 3,
extended with the engine's current node (`AWAIT_APPROVAL` when paused,
`FORMAT_RESPONSE` when terminal for the turn) and the degraded-response
flag of rule 7. -/
structure ConversationState where
  conversation_id : String
  user_message : String
  order_id : Option String
  order_data : Option String
  policy_context : Option String
  agent_decision : Option Decision
  requested_action : Action
  next_step : NextStep
  iteration_count : Nat
  max_iterations : Nat
  pending_approval_id : Option Nat
  final_response : String
  execution_result : Option ExecutionResult
  degraded : Bool
  node : Node
deriving DecidableEq

/-- One conversation thread plus the shared approval-request store. -/
structure Sys where
  state : ConversationState
  store : List ApprovalRequest
deriving DecidableEq

/-- Punctuation characters relevant to order-id normalization. -/
def isPunct (c : Char) : Bool :=
  c = '#' || c = '?' || c = '.' || c = ',' || c = '!' || c = ';' || c = ':' ||
  c = '(' || c = ')'

/-- Strips leading and trailing punctuation from a word. -/
def stripEnds (w : List Char) : List Char :=
  ((w.dropWhile isPunct).reverse.dropWhile isPunct).reverse

/-- Modelled from the spec (section 4.1 rule 3): a word already in the
canonical `ORD-` format is kept; a bare numeric identifier is mapped to the
canonical format by prefixing `ORD-`. -/
def canonicalOrderId (w : List Char) : Option String :=
  if ("ORD-".data).isPrefixOf w then some (String.mk w)
  else if !w.isEmpty && w.all Char.isDigit then some ("ORD-" ++ String.mk w)
  else none

def firstCanonical : List (List Char) → Option String
  | [] => none
  | w :: ws =>
    match canonicalOrderId (stripEnds w) with
    | some k => some k
    | none => firstCanonical ws

/-- Modelled from the spec (section 4.1 rule 3): extracts and normalizes an
order identifier from the user message — strip leading/trailing punctuation
from each word, accept both the prefixed and the bare numeric form, and map
the bare form to the canonical `ORD-` format. -/
def normalize_order_id (msg : String) : Option String :=
  firstCanonical (splitWords msg.data [])

/-- Modelled from the spec (section 4.3): the deterministic, context-aware
fallback text substituted for a missing answer, explaining what is still
needed. -/
def fallbackMessage (s : ConversationState) : String :=
  if s.order_data.isNone then
    "I still need your order information to answer that. Please confirm your order id."
  else
    "I still need a bit more detail about your request to answer that. Could you clarify?"

/-- The answer text after validation: a null or empty `final_answer` is
replaced by the context-aware fallback. -/
def validatedAnswer (s : ConversationState) (d : Decision) : String :=
  match d.final_answer with
  | none => fallbackMessage s
  | some t => if t = "" then fallbackMessage s else t

/-- The action after validation: coerced to `NONE` when no non-empty
`order_id` accompanies a write action. -/
def validatedAction (d : Decision) : Action :=
  if d.action ≠ Action.NONE ∧ d.order_id.getD "" = "" then Action.NONE else d.action

/-- Modelled from the spec (section 4.3, Output Validator): repairs a
null/empty `final_answer` with the context-aware fallback, and coerces the
action to `NONE` when no non-empty `order_id` accompanies it. -/
def validateDecision (s : ConversationState) (d : Decision) : Decision :=
  { d with final_answer := some (validatedAnswer s d), action := validatedAction d }

/-- Modelled from the spec (section 4.1 rule 1): a `NewMessage` trigger
resets the iteration counter, replaces the user message, clears cached data
unless the message reconfirms the same order, and enters `CLASSIFY_INTENT`. -/
def beginTurn (s : ConversationState) (msg : String) : ConversationState :=
  let keep := s.order_id ≠ none ∧ normalize_order_id msg = s.order_id
  { s with user_message := msg,
           iteration_count := 0,
           order_id := if keep then s.order_id else none,
           order_data := if keep then s.order_data else none,
           policy_context := if keep then s.policy_context else none,
           agent_decision := none,
           requested_action := Action.NONE,
           next_step := NextStep.NONE,
           pending_approval_id := none,
           execution_result := none,
           degraded := false,
           final_response := "",
           node := Node.CLASSIFY_INTENT }

/-- Modelled from the spec (section 4.1 rule 2): `CLASSIFY_INTENT`
increments the iteration counter and routes to `FETCH_ORDER` when the
message references an order and no fresh order data exists. -/
def classifyNode (s : ConversationState) : ConversationState :=
  let s1 := { s with iteration_count := s.iteration_count + 1 }
  if (normalize_order_id s1.user_message).isSome ∧ s1.order_data = none then
    { s1 with next_step := NextStep.FETCH_ORDER, node := Node.FETCH_ORDER }
  else
    { s1 with next_step := NextStep.NONE, node := Node.REASON }

/-- Modelled from the spec (section 4.1 rule 3): `FETCH_ORDER` looks up the
normalized identifier; success records the data and clears `next_step`,
failure is not fatal and the node proceeds to `REASON` either way. -/
def fetchOrderNode (lookup : String → Option String) (s : ConversationState) :
    ConversationState :=
  match normalize_order_id s.user_message with
  | none => { s with node := Node.REASON }
  | some k =>
    match lookup k with
    | some dat =>
      { s with order_id := some k, order_data := some dat,
               next_step := NextStep.NONE, node := Node.REASON }
    | none => { s with order_id := some k, node := Node.REASON }

/-- Modelled from the spec (section 4.1 rule 5): `FETCH_POLICY` retrieves
policy snippets for the message and always proceeds to `REASON`. -/
def fetchPolicyNode (retrieve : String → List String) (s : ConversationState) :
    ConversationState :=
  let snips := retrieve s.user_message
  { s with policy_context := if snips.isEmpty then s.policy_context
                             else some (String.intercalate " " snips),
           node := Node.REASON }

/-- Modelled from the spec (section 4.1 rule 6): `REASON` invokes the
reasoning capability (supplied as an oracle indexed by the pass number) and
stores the validated decision, requested action and next-step signal. -/
def reasonPass (oracle : Nat → Decision) (s : ConversationState) : ConversationState :=
  let d := validateDecision s (oracle s.iteration_count)
  { s with agent_decision := some d,
           requested_action := d.action,
           next_step := d.next_step,
           node := Node.VALIDATE_OUTPUT }

/-- Rule 7's loop condition: the decision requests data that is not already
present. -/
def needsMore (s : ConversationState) : Bool :=
  decide ((s.next_step = NextStep.FETCH_ORDER ∧ s.order_data = none) ∨
          (s.next_step = NextStep.FETCH_POLICY ∧ s.policy_context = none))

/-- Modelled from the spec (section 4.1 rules 6 and 7): the bounded
reason/fetch loop.  Each pass increments the iteration counter; while the
decision requests absent data and the counter is below `max_iterations`,
control loops back to the corresponding fetch node; otherwise, at the bound,
`next_step` is forced to `NONE` and the response is flagged degraded.  The
`fuel` argument is the structural bound; callers pass `max_iterations + 1`. -/
def reasonLoop (oracle : Nat → Decision) (lookup : String → Option String)
    (retrieve : String → List String) :
    Nat → ConversationState → ConversationState × List Node
  | 0, s => ({ s with next_step := NextStep.NONE, degraded := true }, [])
  | fuel + 1, s =>
    let s1 := reasonPass oracle { s with iteration_count := s.iteration_count + 1 }
    if needsMore s1 then
      if s1.iteration_count < s1.max_iterations then
        let s2 :=
          if s1.next_step = NextStep.FETCH_ORDER then
            fetchOrderNode lookup { s1 with node := Node.FETCH_ORDER }
          else
            fetchPolicyNode retrieve { s1 with node := Node.FETCH_POLICY }
        let out := reasonLoop oracle lookup retrieve fuel s2
        (out.1,
         Node.REASON ::
           (if s1.next_step = NextStep.FETCH_ORDER then Node.FETCH_ORDER
            else Node.FETCH_POLICY) :: out.2)
      else ({ s1 with next_step := NextStep.NONE, degraded := true }, [Node.REASON])
    else (s1, [Node.REASON])

/-- The validated response text for the turn (spec section 4.1 rule 12). -/
def answerOf (s : ConversationState) : String :=
  match s.agent_decision with
  | some d =>
    match d.final_answer with
    | some t => t
    | none => fallbackMessage s
  | none => fallbackMessage s

/-- Looks an approval request up by id. -/
def findApproval : List ApprovalRequest → Nat → Option ApprovalRequest
  | [], _ => none
  | r :: rs, aid => if r.approval_id = aid then some r else findApproval rs aid

/-- Records a resolution decision on the approval with the given id. -/
def setApprovalStatus : List ApprovalRequest → Nat → ApprovalStatus → List ApprovalRequest
  | [], _, _ => []
  | r :: rs, aid, st =>
    (if r.approval_id = aid then { r with status := st } else r) ::
      setApprovalStatus rs aid st

/-- The terminal state of a turn that needs no approval (rule 9, else
branch): compose the final response and clear any pending marker. -/
def formatExitState (s : ConversationState) : ConversationState :=
  { s with node := Node.FORMAT_RESPONSE,
           final_response := answerOf s,
           pending_approval_id := none }

/-- The paused state of a turn awaiting approval (rule 9, then branch). -/
def awaitExitState (s : ConversationState) (aid : Nat) : ConversationState :=
  { s with node := Node.AWAIT_APPROVAL, pending_approval_id := some aid }

/-- The PENDING approval request the engine creates for the proposed
action (rule 9); fresh ids are allocated as the current store length. -/
def mkApprovalRequest (sys : Sys) : ApprovalRequest :=
  { approval_id := sys.store.length,
    conversation_id := sys.state.conversation_id,
    action := sys.state.requested_action,
    order_id := sys.state.order_id.getD
      (match sys.state.agent_decision with | some d => d.order_id.getD "" | none => ""),
    proposed_message := answerOf sys.state,
    status := ApprovalStatus.PENDING }

/-- Modelled from the spec (section 4.1 rules 8 and 9): `VALIDATE_OUTPUT`
followed by the conditional edge — a non-`NONE` requested action creates a
PENDING `ApprovalRequest` with a fresh identifier and pauses in
`AWAIT_APPROVAL`; otherwise the turn terminates in `FORMAT_RESPONSE`. -/
def validateExit (sys : Sys) : Sys × List Node :=
  if sys.state.requested_action = Action.NONE then
    (⟨formatExitState sys.state, sys.store⟩,
     [Node.VALIDATE_OUTPUT, Node.FORMAT_RESPONSE])
  else
    (⟨awaitExitState sys.state sys.store.length, sys.store ++ [mkApprovalRequest sys]⟩,
     [Node.VALIDATE_OUTPUT, Node.AWAIT_APPROVAL])

/-- The initial fetch phase of a turn (spec section 4.1 rules 2-5):
classification followed by the conditional order/policy fetches.
`policyImplied` stands for the conditional edge of rule 4. -/
def preFetch (lookup : String → Option String) (retrieve : String → List String)
    (policyImplied : Bool) (s1 : ConversationState) : ConversationState × List Node :=
  if s1.next_step = NextStep.FETCH_ORDER then
    let sa := fetchOrderNode lookup s1
    if policyImplied then
      (fetchPolicyNode retrieve { sa with node := Node.FETCH_POLICY },
       [Node.CLASSIFY_INTENT, Node.FETCH_ORDER, Node.FETCH_POLICY])
    else (sa, [Node.CLASSIFY_INTENT, Node.FETCH_ORDER])
  else (s1, [Node.CLASSIFY_INTENT])

/-- Modelled from the spec (section 4.1, `advance` on a `NewMessage`
trigger): runs the graph from `CLASSIFY_INTENT` to the turn's pause or
terminal state and returns the executed node trace. -/
def runTurn (oracle : Nat → Decision) (lookup : String → Option String)
    (retrieve : String → List String) (policyImplied : Bool)
    (sys : Sys) (msg : String) : Sys × List Node :=
  let pre := preFetch lookup retrieve policyImplied (classifyNode (beginTurn sys.state msg))
  let lt := reasonLoop oracle lookup retrieve (pre.1.max_iterations + 1) pre.1
  let fin := validateExit ⟨lt.1, sys.store⟩
  (fin.1, pre.2 ++ lt.2 ++ fin.2)

/-- The state after `EXECUTE_ACTION` ran for an approved decision
(rule 11): the execution result is recorded against the approval id, the
requested action and pending marker are cleared, and the turn terminates. -/
def approvedState (s : ConversationState) (aid : Nat) : ConversationState :=
  { s with execution_result :=
             some { approval_id := aid, action := s.requested_action, ok := true },
           requested_action := Action.NONE,
           pending_approval_id := none,
           node := Node.FORMAT_RESPONSE,
           final_response := "Your request was approved and the action has been executed." }

/-- The state after a rejected decision (rule 10): the requested action is
cleared and a rejection notice becomes the final response. -/
def rejectedState (s : ConversationState) : ConversationState :=
  { s with requested_action := Action.NONE,
           pending_approval_id := none,
           node := Node.FORMAT_RESPONSE,
           final_response := "The proposed action was rejected by the reviewer, so nothing was changed." }

/-- Modelled from the spec (section 4.1 rules 10 and 11, `advance` on an
`ApprovalResolved` trigger): valid only while paused in `AWAIT_APPROVAL` for
the matching, still-PENDING approval id; `APPROVED` marks the request
approved, executes the action (recording its result and clearing the
requested action), `REJECTED` clears the requested action with a rejection
notice; anything else is an invalid approval state and changes nothing
(`none`). -/
def resolveAdvance (sys : Sys) (aid : Nat) (approved : Bool) :
    Option (Sys × List Node) :=
  if sys.state.node = Node.AWAIT_APPROVAL ∧ sys.state.pending_approval_id = some aid then
    match findApproval sys.store aid with
    | some req =>
      if req.status = ApprovalStatus.PENDING then
        if approved then
          some (⟨approvedState sys.state aid,
                 setApprovalStatus sys.store aid ApprovalStatus.APPROVED⟩,
                [Node.EXECUTE_ACTION, Node.FORMAT_RESPONSE])
        else
          some (⟨rejectedState sys.state,
                 setApprovalStatus sys.store aid ApprovalStatus.REJECTED⟩,
                [Node.FORMAT_RESPONSE])
      else none
    | none => none
  else none

/-- A fresh conversation system: open conversation, empty store. -/
def initSys (maxIter : Nat) (cid : String) : Sys :=
  ⟨{ conversation_id := cid, user_message := "", order_id := none,
     order_data := none, policy_context := none, agent_decision := none,
     requested_action := Action.NONE, next_step := NextStep.NONE,
     iteration_count := 0, max_iterations := maxIter,
     pending_approval_id := none, final_response := "",
     execution_result := none, degraded := false,
     node := Node.FORMAT_RESPONSE }, []⟩

/-- Reachability under the two triggers of the entry contract
(spec section 4.1): states the engine can actually be in between requests. -/
inductive Reach : Sys → Prop
  | init : ∀ m cid, Reach (initSys m cid)
  | msg : ∀ o l rt q sys m, Reach sys → Reach (runTurn o l rt q sys m).1
  | resolve : ∀ sys aid ap out, Reach sys →
      resolveAdvance sys aid ap = some out → Reach out.1

/-! ## Spec-modelled approval gate (spec section 4.2) -/

/-- Gate errors of the `resolve` contract. -/
inductive GateError
  | NotFound
  | AlreadyResolved
deriving DecidableEq

def decisionStatus (approved : Bool) : ApprovalStatus :=
  if approved then ApprovalStatus.APPROVED else ApprovalStatus.REJECTED

/-- Modelled from the spec (section 4.2): `resolve(approval_id, decision)`
fails with `NotFound` for an unknown id, with `AlreadyResolved` when the
request is no longer PENDING, and otherwise records the decision; the
updated store is returned alongside, unchanged on failure. -/
def gateResolve (store : List ApprovalRequest) (aid : Nat) (approved : Bool) :
    Except GateError ApprovalRequest × List ApprovalRequest :=
  match findApproval store aid with
  | none => (Except.error GateError.NotFound, store)
  | some req =>
    if req.status = ApprovalStatus.PENDING then
      (Except.ok { req with status := decisionStatus approved },
       setApprovalStatus store aid (decisionStatus approved))
    else (Except.error GateError.AlreadyResolved, store)

/-! ## Invariant predicates used to state the engine theorems -/

/-- The validated decision carries a non-empty answer. -/
def GoodDec (s : ConversationState) : Prop :=
  ∃ d t, s.agent_decision = some d ∧ d.final_answer = some t ∧ t ≠ ""

/-- Every stored approval id is below the store length (fresh ids are the
current length, so this says stored ids never collide with fresh ones). -/
def StoreIds (sys : Sys) : Prop :=
  ∀ r ∈ sys.store, r.approval_id < sys.store.length

/-- While paused in `AWAIT_APPROVAL` there is a matching PENDING approval
request recording exactly the requested action. -/
def AwaitOk (sys : Sys) : Prop :=
  sys.state.node = Node.AWAIT_APPROVAL →
    ∃ aid req, sys.state.pending_approval_id = some aid ∧
      findApproval sys.store aid = some req ∧
      req.status = ApprovalStatus.PENDING ∧
      req.action = sys.state.requested_action

end Engine

/-! ## Concrete instances used by the witnesses -/

/-- A reasoning oracle that proposes cancelling ORD-001. -/
def wOracleCancel : Nat → Engine.Decision := fun _ =>
  { final_answer := some "I can cancel order ORD-001. Do you approve?",
    action := Engine.Action.CANCEL_ORDER, order_id := some "ORD-001",
    confidence := 9, requires_human_approval := true,
    next_step := Engine.NextStep.NONE }

/-- A reasoning oracle that answers directly with no action. -/
def wOracleInfo : Nat → Engine.Decision := fun _ =>
  { final_answer := some "Your order is on the way.",
    action := Engine.Action.NONE, order_id := none, confidence := 9,
    requires_human_approval := false, next_step := Engine.NextStep.NONE }

/-- An order-lookup capability knowing only ORD-001. -/
def wLookup : String → Option String := fun k =>
  if k = "ORD-001" then some "order ORD-001 data" else none

/-- A policy-retrieval capability returning nothing. -/
def wRetrieve : String → List String := fun _ => []

/-- The paused system after the approval-seeking turn. -/
def wPausedSys : Engine.Sys :=
  (Engine.runTurn wOracleCancel wLookup wRetrieve false
    (Engine.initSys 3 "c1") "Cancel order ORD-001").1

/-- The result of approving the pending request of `wPausedSys`. -/
def wResolved : Engine.Sys × List Engine.Node :=
  (Engine.resolveAdvance wPausedSys 0 true).getD (wPausedSys, [])

/-- A concrete chat response carrying a refund approval request. -/
def wChatR : Frontend.ChatResponse :=
  ⟨"I will refund order #ORD-002 for you.", true, some "ap-1"⟩

/-- The pending approval the `useChat` handler derives from `wChatR`. -/
def wPending : Frontend.PendingApproval :=
  ⟨"ap-1", "ORD-002", Frontend.ActionType.REFUND_ORDER,
   "I will refund order #ORD-002 for you."⟩

/-- A concrete PENDING approval request. -/
def wReq : Engine.ApprovalRequest :=
  { approval_id := 0, conversation_id := "c1",
    action := Engine.Action.CANCEL_ORDER, order_id := "ORD-001",
    proposed_message := "ok to cancel?",
    status := Engine.ApprovalStatus.PENDING }

/-- A one-element approval store with a PENDING request. -/
def wStore : List Engine.ApprovalRequest := [wReq]

/-- The graph state logged in `src/unnamed/part_008` when routing ignored
the `next_step` signal. -/
def wBugState : Backend.AgentGraphState :=
  { user_message := "Where is my order #12345?",
    action := Engine.Action.NONE,
    next_step := Engine.NextStep.FETCH_ORDER,
    iteration_count := 1, max_iterations := 3,
    order_data := none, policy_context := none }

/-! ## Helper lemmas on the list utilities -/

theorem isPrefixOf_char_iff (p l : List Char) :
    p.isPrefixOf l = true ↔ ∃ t, l = p ++ t := by
  induction p generalizing l with
  | nil => simp [List.isPrefixOf]
  | cons a as ih =>
    cases l with
    | nil => simp [List.isPrefixOf]
    | cons b bs =>
      simp only [List.isPrefixOf, Bool.and_eq_true, beq_iff_eq, ih, List.cons_append]
      constructor
      · rintro ⟨rfl, t, rfl⟩
        exact ⟨t, rfl⟩
      · rintro ⟨t, h⟩
        injection h with h1 h2
        exact ⟨h1.symm, t, h2⟩

theorem listContainsSub_iff (pat l : List Char) :
    listContainsSub pat l = true ↔ ∃ l1 l2, l = l1 ++ (pat ++ l2) := by
  induction l with
  | nil =>
    simp only [listContainsSub, List.isEmpty_iff]
    constructor
    · rintro rfl
      exact ⟨[], [], rfl⟩
    · rintro ⟨l1, l2, h⟩
      rcases List.append_eq_nil.mp h.symm with ⟨rfl, h2⟩
      exact (List.append_eq_nil.mp h2).1
  | cons c rest ih =>
    simp only [listContainsSub, Bool.or_eq_true, isPrefixOf_char_iff, ih]
    constructor
    · rintro (⟨t, h⟩ | ⟨l1, l2, rfl⟩)
      · exact ⟨[], t, by simpa using h⟩
      · exact ⟨c :: l1, l2, rfl⟩
    · rintro ⟨l1, l2, h⟩
      cases l1 with
      | nil =>
        left
        exact ⟨l2, by simpa using h⟩
      | cons x xs =>
        right
        injection h with h1 h2
        subst h1
        exact ⟨xs, l2, h2⟩

theorem all_takeWhile_self (p : Char → Bool) (l : List Char) :
    (l.takeWhile p).all p = true := by
  induction l with
  | nil => rfl
  | cons c cs ih =>
    rw [List.takeWhile_cons]
    by_cases h : p c = true
    · simp [h, ih]
    · simp [h]

theorem string_ne_empty_of_data (s : String) (h : s.data ≠ []) : s ≠ "" := by
  intro he
  exact h (by rw [he])

theorem gen_conversation_id_ne_empty (ts : Nat) (rand : String) :
    Frontend.generateConversationId ts rand ≠ "" := by
  apply string_ne_empty_of_data
  intro hd
  rw [Frontend.generateConversationId, String.data_append, String.data_append,
      String.data_append] at hd
  rcases List.append_eq_nil.mp hd with ⟨h1, _⟩
  rcases List.append_eq_nil.mp h1 with ⟨h2, _⟩
  rcases List.append_eq_nil.mp h2 with ⟨h3, _⟩
  exact absurd h3 (by decide)

/-! ## Claim C5 -/

/-- C5 counterexample: the body `submitApproval` actually posts for an
APPROVED decision has no field named `decision`; the decision value is
carried by a field named `status`. -/
theorem approval_request_field_counterexample :
    (Frontend.submitApprovalBody Frontend.ApprovalDecision.APPROVED).lookup "decision" = none ∧
    (Frontend.submitApprovalBody Frontend.ApprovalDecision.APPROVED).lookup "status" =
      some "APPROVED" :=
  ⟨rfl, rfl⟩

/-- C5 (amended): every approval resolution posted by the client carries its
decision in a field named `status` whose value is `APPROVED` or `REJECTED`,
the request path is `/approvals/{approval_id}`, and the returned value has
exactly the shape `{status: string, message: string}` demanded by the spec. -/
theorem approval_request_field_amended :
    (∀ d, (Frontend.submitApprovalBody d).lookup "status" =
            some (Frontend.decisionString d)) ∧
    (∀ d, Frontend.decisionString d = "APPROVED" ∨
          Frontend.decisionString d = "REJECTED") ∧
    (∀ aid, Frontend.submitApprovalPath aid = "/approvals/" ++ aid) ∧
    (∀ r, Frontend.approvalResponseOfSpec (Frontend.approvalResponseToSpec r) = r) ∧
    (∀ t, Frontend.approvalResponseToSpec (Frontend.approvalResponseOfSpec t) = t) := by
  refine ⟨fun d => ?_, fun d => ?_, fun aid => rfl, fun r => rfl, fun t => rfl⟩
  · cases d <;> rfl
  · cases d with
    | APPROVED => exact Or.inl rfl
    | REJECTED => exact Or.inr rfl

/-! ## Claim C7 -/

/-- C7: the inbound turn request built by the frontend has exactly the shape
`{conversation_id: string|null, message: string}`; the (spec-modelled)
endpoint substitutes a freshly created identifier exactly when
`conversation_id` is null; and the frontend turn-response type coincides
field-for-field with the spec's
`{response: string, requires_approval: bool, approval_id: string|null}`. -/
theorem chat_turn_contract :
    (∀ m cid, (Frontend.sendMessageRequest m cid).message = m ∧
              (Frontend.sendMessageRequest m cid).conversation_id = cid) ∧
    (∀ m fresh, Frontend.ensureConversationId (Frontend.sendMessageRequest m none) fresh = fresh) ∧
    (∀ m fresh c,
       Frontend.ensureConversationId (Frontend.sendMessageRequest m (some c)) fresh = c) ∧
    (∀ r, Frontend.chatResponseOfSpec (Frontend.chatResponseToSpec r) = r) ∧
    (∀ t, Frontend.chatResponseToSpec (Frontend.chatResponseOfSpec t) = t) :=
  ⟨fun _ _ => ⟨rfl, rfl⟩, fun _ _ => rfl, fun _ _ _ => rfl, fun _ => rfl, fun _ => rfl⟩

/-! ## Claim C2 -/

/-- C2 (defect recorded in src/unnamed/part_008): in the logged state —
`next_step = FETCH_ORDER`, no order data, iteration count below the bound —
the routing function still sends control to `format_final_response` instead
of looping back to the fetch node, because it only inspects `action`. -/
theorem graph_ignores_next_step_eval :
    Backend.should_require_approval wBugState = Backend.RouteTarget.format_final_response ∧
    wBugState.next_step = Engine.NextStep.FETCH_ORDER ∧
    wBugState.order_data = none ∧
    wBugState.iteration_count < wBugState.max_iterations :=
  ⟨rfl, rfl, rfl, by decide⟩

/-! ## Claim C3 -/

/-- C3 (defect recorded in src/unnamed/part_008): on the documented message
the extraction code passes `12345?` to the lookup — the identifier still
contains punctuation and is not the canonical `ORD-12345`. -/
theorem order_id_extraction_eval :
    Backend.extract_order_id "Where is my order #12345?" = some "12345?" ∧
    listContainsSub ['?'] "12345?".data = true ∧
    Backend.extract_order_id "Where is my order #12345?" ≠ some "ORD-12345" :=
  ⟨by decide, by decide, by decide⟩

/-! ## Claim C4 -/

/-- C4 (defect recorded in src/unnamed/part_008): a null `final_answer` is
replaced by the fixed generic apology, a constant that mentions neither the
order nor what is still needed — not a context-aware fallback. -/
theorem null_answer_fallback_eval :
    Backend.normalize_final_answer none = Backend.genericApology ∧
    listContainsSub "order".data (lowerString Backend.genericApology).data = false ∧
    listContainsSub "need".data (lowerString Backend.genericApology).data = false :=
  ⟨rfl, by decide, by decide⟩

/-! ## Claim C10 -/

/-- C10 counterexample: after `setConversationId ""` (storing the empty
string), `getOrCreateConversationId` does not return the stored id — JS
truthiness treats the stored empty string as absent, so a fresh id is
generated instead. -/
theorem conversation_id_roundtrip_counterexample :
    (Frontend.getOrCreateConversationId 5 "abc"
        (Frontend.setConversationId "" ⟨true, none⟩)).1 = "conv-5-abc" ∧
    "conv-5-abc" ≠ "" :=
  ⟨rfl, by decide⟩

/-- C10 (amended): in a browser context (`window` defined), a stored
non-empty id is returned unchanged; with nothing stored a fresh
`conv-<timestamp>-<random>` id is generated, stored and returned; two
consecutive calls return the same id; and a set/get round-trip returns
exactly the set id provided it is non-empty. -/
theorem conversation_id_roundtrip :
    ∀ (env : Frontend.BrowserEnv) (ts ts2 : Nat) (rand rand2 id : String),
      env.hasWindow = true →
      ((∀ s, env.stored = some s → s ≠ "" →
          Frontend.getOrCreateConversationId ts rand env = (s, env)) ∧
       (env.stored = none →
          Frontend.getOrCreateConversationId ts rand env =
            (Frontend.generateConversationId ts rand,
             { env with stored := some (Frontend.generateConversationId ts rand) })) ∧
       ((Frontend.getOrCreateConversationId ts2 rand2
            (Frontend.getOrCreateConversationId ts rand env).2).1 =
          (Frontend.getOrCreateConversationId ts rand env).1) ∧
       (id ≠ "" →
          (Frontend.getOrCreateConversationId ts rand
             (Frontend.setConversationId id env)).1 = id)) := by
  intro env ts ts2 rand rand2 id hw
  obtain ⟨hwb, st⟩ := env
  simp only [Frontend.BrowserEnv.hasWindow] at hw
  subst hw
  refine ⟨?_, ?_, ?_, ?_⟩
  · rintro s hs hne
    simp only [Frontend.BrowserEnv.stored] at hs
    subst hs
    simp [Frontend.getOrCreateConversationId, hne]
  · intro hs
    simp only [Frontend.BrowserEnv.stored] at hs
    subst hs
    simp [Frontend.getOrCreateConversationId]
  · cases st with
    | none =>
      simp [Frontend.getOrCreateConversationId,
            gen_conversation_id_ne_empty ts rand]
    | some s =>
      by_cases hs : s = ""
      · subst hs
        simp [Frontend.getOrCreateConversationId,
              gen_conversation_id_ne_empty ts rand]
      · simp [Frontend.getOrCreateConversationId, hs]
  · intro hid
    simp [Frontend.getOrCreateConversationId, Frontend.setConversationId, hid]

/-- C10 witness: the amended round-trip evaluated at the concrete id
`ORD-7` in a fresh browser environment. -/
theorem conversation_id_roundtrip_witness :
    (Frontend.getOrCreateConversationId 1 "abc"
       (Frontend.setConversationId "ORD-7" ⟨true, none⟩)).1 = "ORD-7" :=
  (conversation_id_roundtrip ⟨true, none⟩ 1 2 "abc" "zzz" "ORD-7" rfl).2.2.2 (by decide)

/-! ## Claim C9 -/

theorem captureTail_good (r3 cap : List Char)
    (h : Frontend.captureTail r3 = some cap) :
    cap ≠ [] ∧ cap.all Frontend.isIdChar = true := by
  unfold Frontend.captureTail at h
  by_cases he : (r3.takeWhile Frontend.isIdChar).isEmpty = true
  · rw [if_pos he] at h
    cases h
  · rw [if_neg he] at h
    obtain rfl := Option.some.inj h
    refine ⟨fun hn => he ?_, all_takeWhile_self _ _⟩
    rw [hn]
    rfl

theorem captureAt_good (cs cap : List Char)
    (h : Frontend.captureAt cs = some cap) :
    cap ≠ [] ∧ cap.all Frontend.isIdChar = true := by
  unfold Frontend.captureAt at h
  split at h
  · cases h
  · split at h
    · cases h
    · exact captureTail_good _ _ h

theorem firstCapture_good (l cap : List Char)
    (h : Frontend.firstCapture l = some cap) :
    cap ≠ [] ∧ cap.all Frontend.isIdChar = true := by
  induction l with
  | nil => cases h
  | cons c rest ih =>
    rw [Frontend.firstCapture] at h
    cases hca : Frontend.captureAt (c :: rest) with
    | some cap2 =>
      rw [hca] at h
      obtain rfl := Option.some.inj h
      exact captureAt_good _ _ hca
    | none =>
      rw [hca] at h
      exact ih h

/-- C9 counterexample: for a response with `requires_approval = true` and a
non-null (but empty) `approval_id`, the handler clears the pending approval
instead of setting it — JS truthiness of `approval_id`, not mere
non-nullity, governs the branch. -/
theorem pending_approval_counterexample :
    (⟨"m", true, some ""⟩ : Frontend.ChatResponse).requires_approval = true ∧
    (⟨"m", true, some ""⟩ : Frontend.ChatResponse).approval_id ≠ none ∧
    Frontend.onChatSuccessPending ⟨"m", true, some ""⟩ = none :=
  ⟨rfl, by decide, rfl⟩

/-- C9 (amended): the `useChat` handler sets a pending approval iff
`requires_approval` is true and `approval_id` is non-null and non-empty
(JS truthiness); when set, the approval id is the response's id, the message
is the response text, the action is `REFUND_ORDER` exactly when the
lowercased response text contains the substring `refund` (else
`CANCEL_ORDER`), and the order id is the first capture of
`/order\s+(?:#)?([A-Z0-9-]+)/i` on the response text, or `Unknown` — in
particular it is `Unknown` or a non-empty string over `[A-Za-z0-9-]`. -/
theorem pending_approval_characterization :
    ∀ r : Frontend.ChatResponse,
      ((Frontend.onChatSuccessPending r).isSome = true ↔
         (r.requires_approval = true ∧ ∃ s, r.approval_id = some s ∧ s ≠ "")) ∧
      (∀ p, Frontend.onChatSuccessPending r = some p →
         r.approval_id = some p.approvalId ∧
         p.message = r.response ∧
         ((p.action = Frontend.ActionType.REFUND_ORDER) ↔
            ∃ l1 l2, (lowerString r.response).data = l1 ++ ("refund".data ++ l2)) ∧
         (p.action = Frontend.ActionType.REFUND_ORDER ∨
          p.action = Frontend.ActionType.CANCEL_ORDER) ∧
         p.orderId = Frontend.extractOrderIdFromText r.response ∧
         (p.orderId = "Unknown" ∨
           (p.orderId.data ≠ [] ∧ p.orderId.data.all Frontend.isIdChar = true))) := by
  intro r
  constructor
  · cases hra : r.requires_approval with
    | false => simp [Frontend.onChatSuccessPending, hra]
    | true =>
      cases hai : r.approval_id with
      | none => simp [Frontend.onChatSuccessPending, Frontend.truthyString, hra, hai]
      | some s =>
        by_cases hs : s = ""
        · subst hs
          simp [Frontend.onChatSuccessPending, Frontend.truthyString, hra, hai]
        · simp [Frontend.onChatSuccessPending, Frontend.truthyString, hra, hai, hs]
  · intro p hp
    unfold Frontend.onChatSuccessPending at hp
    by_cases hc : (r.requires_approval && Frontend.truthyString r.approval_id) = true
    · rw [if_pos hc] at hp
      obtain rfl := Option.some.inj hp
      have hai : ∃ s, r.approval_id = some s ∧ s ≠ "" := by
        have hsplit : r.requires_approval = true ∧
            Frontend.truthyString r.approval_id = true := by simpa using hc
        rcases hsplit with ⟨_, ht⟩
        cases hai : r.approval_id with
        | none => rw [hai] at ht; simp [Frontend.truthyString] at ht
        | some s =>
          refine ⟨s, rfl, fun hs => ?_⟩
          rw [hai] at ht
          subst hs
          simp [Frontend.truthyString] at ht
      obtain ⟨s, hse, hsne⟩ := hai
      refine ⟨?_, rfl, ?_, ?_, rfl, ?_⟩
      · rw [hse]
        simp [hse]
      · unfold Frontend.extractActionFromText
        by_cases hcon :
            listContainsSub "refund".data (lowerString r.response).data = true
        · simp only [if_pos hcon]
          simpa using (listContainsSub_iff _ _).mp hcon
        · simp only [if_neg hcon]
          constructor
          · intro he
            cases he
          · intro hex
            exact absurd ((listContainsSub_iff _ _).mpr hex) hcon
      · unfold Frontend.extractActionFromText
        by_cases hcon :
            listContainsSub "refund".data (lowerString r.response).data = true
        · simp [if_pos hcon]
        · simp [if_neg hcon]
      · unfold Frontend.extractOrderIdFromText
        cases hfc : Frontend.firstCapture r.response.data with
        | none => exact Or.inl rfl
        | some cap =>
          right
          have := firstCapture_good _ _ hfc
          exact ⟨this.1, this.2⟩
    · rw [if_neg hc] at hp
      cases hp

/-- C9 witness: the characterization applied to the concrete refund
response `wChatR`, whose computed pending approval is `wPending`. -/
theorem pending_approval_characterization_witness :
    wChatR.approval_id = some wPending.approvalId ∧
    wPending.message = wChatR.response ∧
    ((wPending.action = Frontend.ActionType.REFUND_ORDER) ↔
       ∃ l1 l2, (lowerString wChatR.response).data = l1 ++ ("refund".data ++ l2)) ∧
    (wPending.action = Frontend.ActionType.REFUND_ORDER ∨
     wPending.action = Frontend.ActionType.CANCEL_ORDER) ∧
    wPending.orderId = Frontend.extractOrderIdFromText wChatR.response ∧
    (wPending.orderId = "Unknown" ∨
      (wPending.orderId.data ≠ [] ∧ wPending.orderId.data.all Frontend.isIdChar = true)) :=
  (pending_approval_characterization wChatR).2 wPending (by decide)

/-! ## Claim C6 -/

theorem findApproval_set (store : List Engine.ApprovalRequest) (aid : Nat)
    (st : Engine.ApprovalStatus) :
    Engine.findApproval (Engine.setApprovalStatus store aid st) aid =
      (Engine.findApproval store aid).map (fun r => { r with status := st }) := by
  induction store with
  | nil => rfl
  | cons r rs ih =>
    by_cases hr : r.approval_id = aid
    · simp [Engine.setApprovalStatus, Engine.findApproval, hr]
    · simp [Engine.setApprovalStatus, Engine.findApproval, hr, ih]

/-- C6: resolving an unknown approval id fails with `NotFound` and changes
nothing; a PENDING id resolves successfully exactly once — whatever pair of
decisions is submitted and in whichever order, the second resolution fails
with `AlreadyResolved` and leaves the store unchanged; and every failing
resolution returns the store unchanged. -/
theorem gate_resolve_exactly_once :
    (∀ store aid ap, Engine.findApproval store aid = none →
       Engine.gateResolve store aid ap =
         (Except.error Engine.GateError.NotFound, store)) ∧
    (∀ store aid req (a1 a2 : Bool), Engine.findApproval store aid = some req →
       req.status = Engine.ApprovalStatus.PENDING →
       (Engine.gateResolve store aid a1).1 =
           Except.ok { req with status := Engine.decisionStatus a1 } ∧
       (Engine.gateResolve (Engine.gateResolve store aid a1).2 aid a2).1 =
           Except.error Engine.GateError.AlreadyResolved ∧
       (Engine.gateResolve (Engine.gateResolve store aid a1).2 aid a2).2 =
           (Engine.gateResolve store aid a1).2) ∧
    (∀ store aid ap e, (Engine.gateResolve store aid ap).1 = Except.error e →
       (Engine.gateResolve store aid ap).2 = store) := by
  refine ⟨?_, ?_, ?_⟩
  · intro store aid ap h
    unfold Engine.gateResolve
    rw [h]
  · intro store aid req a1 a2 hf hp
    have h1 : Engine.gateResolve store aid a1 =
        (Except.ok { req with status := Engine.decisionStatus a1 },
         Engine.setApprovalStatus store aid (Engine.decisionStatus a1)) := by
      unfold Engine.gateResolve
      rw [hf]
      simp [hp]
    have hfind2 : Engine.findApproval (Engine.gateResolve store aid a1).2 aid =
        some { req with status := Engine.decisionStatus a1 } := by
      rw [h1]
      simp [findApproval_set, hf]
    have hnp : ¬({ req with status := Engine.decisionStatus a1 } :
        Engine.ApprovalRequest).status = Engine.ApprovalStatus.PENDING := by
      cases a1 <;> simp [Engine.decisionStatus]
    have h2 : Engine.gateResolve (Engine.gateResolve store aid a1).2 aid a2 =
        (Except.error Engine.GateError.AlreadyResolved,
         (Engine.gateResolve store aid a1).2) := by
      set X := (Engine.gateResolve store aid a1).2 with hX
      unfold Engine.gateResolve
      rw [hfind2]
      simp [hnp]
    exact ⟨by rw [h1], by rw [h2], by rw [h2]⟩
  · intro store aid ap e h
    cases hf : Engine.findApproval store aid with
    | none =>
      unfold Engine.gateResolve
      rw [hf]
    | some req =>
      by_cases hp : req.status = Engine.ApprovalStatus.PENDING
      · exfalso
        unfold Engine.gateResolve at h
        rw [hf] at h
        simp [hp] at h
      · unfold Engine.gateResolve
        rw [hf]
        simp [hp]

/-- C6 witness: the exactly-once behavior evaluated on the concrete
one-element store `wStore`, approving first and rejecting second. -/
theorem gate_resolve_exactly_once_witness :
    (Engine.gateResolve wStore 0 true).1 =
        Except.ok { wReq with status := Engine.decisionStatus true } ∧
    (Engine.gateResolve (Engine.gateResolve wStore 0 true).2 0 false).1 =
        Except.error Engine.GateError.AlreadyResolved ∧
    (Engine.gateResolve (Engine.gateResolve wStore 0 true).2 0 false).2 =
        (Engine.gateResolve wStore 0 true).2 :=
  gate_resolve_exactly_once.2.1 wStore 0 wReq true false (by decide) rfl

/-! ## Engine lemmas shared by claims C1 and C8 -/

theorem runTurn_fst (o : Nat → Engine.Decision) (l : String → Option String)
    (rt : String → List String) (q : Bool) (sys : Engine.Sys) (m : String) :
    (Engine.runTurn o l rt q sys m).1 =
      (Engine.validateExit
        ⟨(Engine.reasonLoop o l rt
            ((Engine.preFetch l rt q (Engine.classifyNode (Engine.beginTurn sys.state m))).1.max_iterations + 1)
            (Engine.preFetch l rt q (Engine.classifyNode (Engine.beginTurn sys.state m))).1).1,
          sys.store⟩).1 := rfl

theorem runTurn_snd (o : Nat → Engine.Decision) (l : String → Option String)
    (rt : String → List String) (q : Bool) (sys : Engine.Sys) (m : String) :
    (Engine.runTurn o l rt q sys m).2 =
      (Engine.preFetch l rt q (Engine.classifyNode (Engine.beginTurn sys.state m))).2 ++
      (Engine.reasonLoop o l rt
          ((Engine.preFetch l rt q (Engine.classifyNode (Engine.beginTurn sys.state m))).1.max_iterations + 1)
          (Engine.preFetch l rt q (Engine.classifyNode (Engine.beginTurn sys.state m))).1).2 ++
      (Engine.validateExit
        ⟨(Engine.reasonLoop o l rt
            ((Engine.preFetch l rt q (Engine.classifyNode (Engine.beginTurn sys.state m))).1.max_iterations + 1)
            (Engine.preFetch l rt q (Engine.classifyNode (Engine.beginTurn sys.state m))).1).1,
          sys.store⟩).2 := rfl

theorem validateExit_eq (sys : Engine.Sys) :
    (sys.state.requested_action = Engine.Action.NONE ∧
      Engine.validateExit sys =
        (⟨Engine.formatExitState sys.state, sys.store⟩,
         [Engine.Node.VALIDATE_OUTPUT, Engine.Node.FORMAT_RESPONSE])) ∨
    (¬sys.state.requested_action = Engine.Action.NONE ∧
      Engine.validateExit sys =
        (⟨Engine.awaitExitState sys.state sys.store.length,
          sys.store ++ [Engine.mkApprovalRequest sys]⟩,
         [Engine.Node.VALIDATE_OUTPUT, Engine.Node.AWAIT_APPROVAL])) := by
  by_cases h : sys.state.requested_action = Engine.Action.NONE
  · exact Or.inl ⟨h, by unfold Engine.validateExit; rw [if_pos h]⟩
  · exact Or.inr ⟨h, by unfold Engine.validateExit; rw [if_neg h]⟩

theorem resolveAdvance_eq (sys : Engine.Sys) (aid : Nat) (ap : Bool)
    (out : Engine.Sys × List Engine.Node)
    (h : Engine.resolveAdvance sys aid ap = some out) :
    sys.state.node = Engine.Node.AWAIT_APPROVAL ∧
    sys.state.pending_approval_id = some aid ∧
    ∃ req, Engine.findApproval sys.store aid = some req ∧
      req.status = Engine.ApprovalStatus.PENDING ∧
      ((ap = true ∧ out = (⟨Engine.approvedState sys.state aid,
          Engine.setApprovalStatus sys.store aid Engine.ApprovalStatus.APPROVED⟩,
          [Engine.Node.EXECUTE_ACTION, Engine.Node.FORMAT_RESPONSE])) ∨
       (ap = false ∧ out = (⟨Engine.rejectedState sys.state,
          Engine.setApprovalStatus sys.store aid Engine.ApprovalStatus.REJECTED⟩,
          [Engine.Node.FORMAT_RESPONSE]))) := by
  unfold Engine.resolveAdvance at h
  split at h
  · rename_i hcond
    refine ⟨hcond.1, hcond.2, ?_⟩
    split at h
    · rename_i req hfind
      refine ⟨req, hfind, ?_⟩
      split at h
      · rename_i hpend
        refine ⟨hpend, ?_⟩
        cases ap with
        | true =>
          rw [if_pos rfl] at h
          exact Or.inl ⟨rfl, (Option.some.inj h).symm⟩
        | false =>
          rw [if_neg (by simp)] at h
          exact Or.inr ⟨rfl, (Option.some.inj h).symm⟩
      · cases h
    · cases h
  · cases h

theorem fallbackMessage_ne_empty (s : Engine.ConversationState) :
    Engine.fallbackMessage s ≠ "" := by
  unfold Engine.fallbackMessage
  split <;> decide

theorem validatedAnswer_ne_empty (s : Engine.ConversationState) (d : Engine.Decision) :
    Engine.validatedAnswer s d ≠ "" := by
  unfold Engine.validatedAnswer
  split
  · exact fallbackMessage_ne_empty s
  · split
    · exact fallbackMessage_ne_empty s
    · rename_i ht
      exact ht

theorem goodDec_of_eq (s s' : Engine.ConversationState)
    (h : s'.agent_decision = s.agent_decision) (hg : Engine.GoodDec s) :
    Engine.GoodDec s' := by
  obtain ⟨d, t, hd, ht, hne⟩ := hg
  exact ⟨d, t, h.trans hd, ht, hne⟩

theorem reasonPass_good (o : Nat → Engine.Decision) (s : Engine.ConversationState) :
    Engine.GoodDec (Engine.reasonPass o s) :=
  ⟨Engine.validateDecision s (o s.iteration_count),
   Engine.validatedAnswer s (o s.iteration_count), rfl, rfl,
   validatedAnswer_ne_empty s (o s.iteration_count)⟩

theorem fetchOrder_decision (l : String → Option String) (s : Engine.ConversationState) :
    (Engine.fetchOrderNode l s).agent_decision = s.agent_decision := by
  unfold Engine.fetchOrderNode
  split
  · rfl
  · split <;> rfl

theorem fetchPolicy_decision (rt : String → List String) (s : Engine.ConversationState) :
    (Engine.fetchPolicyNode rt s).agent_decision = s.agent_decision := rfl

theorem reasonLoop_good (o : Nat → Engine.Decision) (l : String → Option String)
    (rt : String → List String) :
    ∀ fuel s, (Engine.GoodDec s ∨ 1 ≤ fuel) →
      Engine.GoodDec (Engine.reasonLoop o l rt fuel s).1 := by
  intro fuel
  induction fuel with
  | zero =>
    rintro s (hg | hf)
    · exact goodDec_of_eq _ _ rfl hg
    · omega
  | succ fuel ih =>
    rintro s _
    simp only [Engine.reasonLoop]
    split
    · split
      · refine ih _ (Or.inl ?_)
        split
        · exact goodDec_of_eq _ _ (fetchOrder_decision _ _) (reasonPass_good o _)
        · exact goodDec_of_eq _ _ (fetchPolicy_decision _ _) (reasonPass_good o _)
      · exact goodDec_of_eq _ _ rfl (reasonPass_good o _)
    · exact reasonPass_good o _

theorem answerOf_ne_empty (s : Engine.ConversationState) (hg : Engine.GoodDec s) :
    Engine.answerOf s ≠ "" := by
  obtain ⟨d, t, hd, ht, hne⟩ := hg
  unfold Engine.answerOf
  rw [hd]
  simp only [ht]
  exact hne

theorem validateExit_good (sys : Engine.Sys) (hg : Engine.GoodDec sys.state) :
    ((Engine.validateExit sys).1.state.node = Engine.Node.FORMAT_RESPONSE →
       (Engine.validateExit sys).1.state.final_response ≠ "") ∧
    ((Engine.validateExit sys).1.state.node = Engine.Node.AWAIT_APPROVAL →
       (Engine.validateExit sys).1.state.pending_approval_id.isSome = true) := by
  rcases validateExit_eq sys with ⟨hq, heq⟩ | ⟨hq, heq⟩
  · rw [heq]
    constructor
    · intro _
      show Engine.answerOf sys.state ≠ ""
      exact answerOf_ne_empty sys.state hg
    · intro hnode
      simp [Engine.formatExitState] at hnode
  · rw [heq]
    constructor
    · intro hnode
      simp [Engine.awaitExitState] at hnode
    · intro _
      rfl

theorem preFetch_trace (l : String → Option String) (rt : String → List String)
    (q : Bool) (s1 : Engine.ConversationState) :
    Engine.Node.EXECUTE_ACTION ∉ (Engine.preFetch l rt q s1).2 := by
  unfold Engine.preFetch
  split
  · split <;> simp
  · simp

theorem reasonLoop_trace (o : Nat → Engine.Decision) (l : String → Option String)
    (rt : String → List String) :
    ∀ fuel s, Engine.Node.EXECUTE_ACTION ∉ (Engine.reasonLoop o l rt fuel s).2 := by
  intro fuel
  induction fuel with
  | zero =>
    intro s
    simp [Engine.reasonLoop]
  | succ fuel ih =>
    intro s
    simp only [Engine.reasonLoop]
    split
    · split
      · intro hmem
        rcases List.mem_cons.mp hmem with h1 | hmem2
        · simp at h1
        rcases List.mem_cons.mp hmem2 with h2 | hmem3
        · revert h2
          split <;> simp
        · exact ih _ hmem3
      · simp
    · simp

theorem validateExit_trace (sys : Engine.Sys) :
    Engine.Node.EXECUTE_ACTION ∉ (Engine.validateExit sys).2 := by
  unfold Engine.validateExit
  split <;> simp

theorem findApproval_append (store : List Engine.ApprovalRequest)
    (req : Engine.ApprovalRequest) (aid : Nat)
    (h : ∀ r ∈ store, ¬r.approval_id = aid) (hr : req.approval_id = aid) :
    Engine.findApproval (store ++ [req]) aid = some req := by
  induction store with
  | nil => simp [Engine.findApproval, hr]
  | cons r rs ih =>
    have hne := h r (List.mem_cons_self r rs)
    simp only [List.cons_append, Engine.findApproval, if_neg hne]
    exact ih (fun x hx => h x (List.mem_cons_of_mem _ hx))

theorem setApprovalStatus_length (store : List Engine.ApprovalRequest)
    (aid : Nat) (st : Engine.ApprovalStatus) :
    (Engine.setApprovalStatus store aid st).length = store.length := by
  induction store with
  | nil => rfl
  | cons r rs ih => simp [Engine.setApprovalStatus, ih]

theorem mem_setApprovalStatus (aid : Nat) (st : Engine.ApprovalStatus)
    (r : Engine.ApprovalRequest) :
    ∀ store, r ∈ Engine.setApprovalStatus store aid st →
      ∃ r0 ∈ store, r.approval_id = r0.approval_id := by
  intro store
  induction store with
  | nil =>
    intro hr
    cases hr
  | cons r0 rs ih =>
    intro hr
    rcases List.mem_cons.mp hr with h1 | h2
    · by_cases hc : r0.approval_id = aid
      · rw [if_pos hc] at h1
        exact ⟨r0, List.mem_cons_self _ _, by rw [h1]⟩
      · rw [if_neg hc] at h1
        exact ⟨r0, List.mem_cons_self _ _, by rw [h1]⟩
    · obtain ⟨x, hx, he⟩ := ih h2
      exact ⟨x, List.mem_cons_of_mem _ hx, he⟩

theorem validateExit_inv (sys : Engine.Sys) (hids : Engine.StoreIds sys) :
    Engine.StoreIds (Engine.validateExit sys).1 ∧
    Engine.AwaitOk (Engine.validateExit sys).1 := by
  rcases validateExit_eq sys with ⟨hq, heq⟩ | ⟨hq, heq⟩
  · rw [heq]
    constructor
    · exact hids
    · intro hnode
      simp [Engine.formatExitState] at hnode
  · rw [heq]
    constructor
    · intro r hr
      rcases List.mem_append.mp hr with h1 | h2
      · have := hids r h1
        simp only [Engine.Sys.store, List.length_append, List.length_cons,
                   List.length_nil]
        omega
      · rcases List.mem_singleton.mp h2 with rfl
        simp only [Engine.Sys.store, Engine.mkApprovalRequest, List.length_append,
                   List.length_cons, List.length_nil]
        omega
    · intro _
      refine ⟨sys.store.length, Engine.mkApprovalRequest sys, rfl, ?_, rfl, rfl⟩
      exact findApproval_append sys.store (Engine.mkApprovalRequest sys) sys.store.length
        (fun r hrr => Nat.ne_of_lt (hids r hrr)) rfl

theorem resolveAdvance_inv (sys : Engine.Sys) (aid : Nat) (ap : Bool)
    (out : Engine.Sys × List Engine.Node)
    (h : Engine.resolveAdvance sys aid ap = some out)
    (hids : Engine.StoreIds sys) :
    Engine.StoreIds out.1 ∧ Engine.AwaitOk out.1 := by
  rcases resolveAdvance_eq sys aid ap out h with ⟨_, _, req, _, _, hout⟩
  have hset : ∀ st : Engine.ApprovalStatus,
      Engine.StoreIds ⟨out.1.state, Engine.setApprovalStatus sys.store aid st⟩ := by
    intro st r hr
    obtain ⟨r0, hr0, he⟩ := mem_setApprovalStatus aid st r sys.store hr
    have := hids r0 hr0
    simp only [Engine.Sys.store, setApprovalStatus_length]
    omega
  rcases hout with ⟨_, rfl⟩ | ⟨_, rfl⟩
  · constructor
    · exact hset Engine.ApprovalStatus.APPROVED
    · intro hnode
      simp [Engine.approvedState] at hnode
  · constructor
    · exact hset Engine.ApprovalStatus.REJECTED
    · intro hnode
      simp [Engine.rejectedState] at hnode

theorem reach_inv (sys : Engine.Sys) (h : Engine.Reach sys) :
    Engine.StoreIds sys ∧ Engine.AwaitOk sys := by
  induction h with
  | init m cid =>
    constructor
    · intro r hr
      cases hr
    · intro hnode
      simp [Engine.initSys] at hnode
  | msg o l rt q sys' m hr ih =>
    rw [runTurn_fst]
    exact validateExit_inv _ ih.1
  | resolve sys' aid ap out hr heq ih =>
    exact resolveAdvance_inv sys' aid ap out heq ih.1

/-! ## Claim C8 -/

/-- C8: for every trigger and every capability behavior, a turn that ends
terminal (`FORMAT_RESPONSE`) carries a non-empty `final_response`, a turn
that ends paused for approval (`AWAIT_APPROVAL`) carries a non-null pending
approval id, and every successful approval resolution completes the turn
with a non-empty response.  (The engine is modelled from the spec; its
backend sources are not available.) -/
theorem turn_response_nonempty :
    (∀ o l rt q sys m,
       ((Engine.runTurn o l rt q sys m).1.state.node = Engine.Node.FORMAT_RESPONSE →
          (Engine.runTurn o l rt q sys m).1.state.final_response ≠ "") ∧
       ((Engine.runTurn o l rt q sys m).1.state.node = Engine.Node.AWAIT_APPROVAL →
          (Engine.runTurn o l rt q sys m).1.state.pending_approval_id.isSome = true)) ∧
    (∀ sys aid ap out, Engine.resolveAdvance sys aid ap = some out →
       out.1.state.node = Engine.Node.FORMAT_RESPONSE ∧
       out.1.state.final_response ≠ "") := by
  constructor
  · intro o l rt q sys m
    rw [runTurn_fst]
    exact validateExit_good _ (reasonLoop_good o l rt _ _ (Or.inr (by omega)))
  · intro sys aid ap out h
    rcases resolveAdvance_eq sys aid ap out h with ⟨_, _, req, _, _, hout⟩
    rcases hout with ⟨_, rfl⟩ | ⟨_, rfl⟩
    · refine ⟨rfl, ?_⟩
      show ("Your request was approved and the action has been executed." : String) ≠ ""
      decide
    · refine ⟨rfl, ?_⟩
      show ("The proposed action was rejected by the reviewer, so nothing was changed." : String) ≠ ""
      decide

/-- C8 witness: a concrete informational turn produces a non-empty final
response. -/
theorem turn_response_nonempty_witness :
    (Engine.runTurn wOracleInfo wLookup wRetrieve false
       (Engine.initSys 3 "c2") "hello").1.state.final_response ≠ "" :=
  (turn_response_nonempty.1 wOracleInfo wLookup wRetrieve false
     (Engine.initSys 3 "c2") "hello").1 (by decide)

/-! ## Claim C1 -/

/-- C1: over all reachable engine states (spec-modelled engine): whenever
`requested_action` is not `NONE`, the state is awaiting approval
(`pending_approval_id` set) or carries a terminal `execution_result` for
that decision; no `NewMessage` turn ever executes `EXECUTE_ACTION`; and
whenever a resolution trace runs `EXECUTE_ACTION`, the decision was
APPROVED and the store records an APPROVED `ApprovalRequest` for exactly
the pending id and the requested action. -/
theorem approval_gating_invariant :
    (∀ sys, Engine.Reach sys →
       ¬sys.state.requested_action = Engine.Action.NONE →
       sys.state.pending_approval_id.isSome = true ∨
       ∃ r, sys.state.execution_result = some r ∧
         r.action = sys.state.requested_action) ∧
    (∀ o l rt q sys m,
       Engine.Node.EXECUTE_ACTION ∉ (Engine.runTurn o l rt q sys m).2) ∧
    (∀ sys aid ap out, Engine.Reach sys →
       Engine.resolveAdvance sys aid ap = some out →
       Engine.Node.EXECUTE_ACTION ∈ out.2 →
       ap = true ∧
       sys.state.pending_approval_id = some aid ∧
       ∃ req, Engine.findApproval out.1.store aid = some req ∧
         req.status = Engine.ApprovalStatus.APPROVED ∧
         req.action = sys.state.requested_action) := by
  refine ⟨?_, ?_, ?_⟩
  · intro sys hre
    induction hre with
    | init m cid =>
      intro h
      exact absurd rfl h
    | msg o l rt q sys' m hr ih =>
      intro h
      left
      rw [runTurn_fst] at h ⊢
      rcases validateExit_eq
          ⟨(Engine.reasonLoop o l rt
              ((Engine.preFetch l rt q (Engine.classifyNode (Engine.beginTurn sys'.state m))).1.max_iterations + 1)
              (Engine.preFetch l rt q (Engine.classifyNode (Engine.beginTurn sys'.state m))).1).1,
            sys'.store⟩ with ⟨hq, heq⟩ | ⟨hq, heq⟩
      · rw [heq] at h
        exact absurd hq h
      · rw [heq]
        rfl
    | resolve sys' aid ap out hr heq ih =>
      intro h
      exfalso
      rcases resolveAdvance_eq sys' aid ap out heq with ⟨_, _, req, _, _, hout⟩
      rcases hout with ⟨_, rfl⟩ | ⟨_, rfl⟩
      · exact h rfl
      · exact h rfl
  · intro o l rt q sys m
    rw [runTurn_snd]
    intro hmem
    rcases List.mem_append.mp hmem with hmem1 | hmem2
    · rcases List.mem_append.mp hmem1 with hpre | hloop
      · exact preFetch_trace l rt q _ hpre
      · exact reasonLoop_trace o l rt _ _ hloop
    · exact validateExit_trace _ hmem2
  · intro sys aid ap out hre heq hmem
    rcases resolveAdvance_eq sys aid ap out heq with
      ⟨hnode, hpend, req, hfind, hpending, hout⟩
    rcases hout with ⟨hap, rfl⟩ | ⟨hap, rfl⟩
    · subst hap
      refine ⟨rfl, hpend, ?_⟩
      obtain ⟨aid2, req2, hpend2, hfind2, _, hact2⟩ := (reach_inv sys hre).2 hnode
      have haid : aid2 = aid := by
        rw [hpend] at hpend2
        exact (Option.some.inj hpend2).symm
      subst haid
      rw [hfind] at hfind2
      have hreq : req = req2 := Option.some.inj hfind2
      refine ⟨{ req with status := Engine.ApprovalStatus.APPROVED }, ?_, rfl, ?_⟩
      · show Engine.findApproval
          (Engine.setApprovalStatus sys.store aid2 Engine.ApprovalStatus.APPROVED) aid2 =
          some { req with status := Engine.ApprovalStatus.APPROVED }
        rw [findApproval_set, hfind]
        rfl
      · show req.action = sys.state.requested_action
        rw [hreq]
        exact hact2
    · exfalso
      revert hmem
      simp

/-- C1 witness: the gating conjunct applied to the concrete reachable
paused system `wPausedSys` and its approved resolution `wResolved`. -/
theorem approval_gating_invariant_witness :
    true = true ∧
    wPausedSys.state.pending_approval_id = some 0 ∧
    ∃ req, Engine.findApproval wResolved.1.store 0 = some req ∧
      req.status = Engine.ApprovalStatus.APPROVED ∧
      req.action = wPausedSys.state.requested_action :=
  approval_gating_invariant.2.2 wPausedSys 0 true wResolved
    (Engine.Reach.msg wOracleCancel wLookup wRetrieve false (Engine.initSys 3 "c1")
      "Cancel order ORD-001" (Engine.Reach.init 3 "c1"))
    (by rfl) (by decide)

end EcommerceAgent
